import Mathlib

/-!
Verification of the repository publisher script (src/git_push.py).

The script is a straight-line sequence of effectful statements:

  os.chdir('/Users/usuario/Documents/projetos/resea-backend')   -- line 5
  subprocess.run(['git', 'add', 'src/routes/search.ts',
                  'src/server.ts', 'PHASE1_COMPLETE.md'])       -- line 8
  subprocess.run(['git', 'commit', '-m',
                  'feat: Complete Phase 1 automation'])         -- line 11
  subprocess.run(['git', 'push', 'origin', 'main'])             -- line 14
  print("✅ Commit e push concluídos!")                         -- line 16

We embed a run of the script as a trace of observable events, parameterised
by the environment: whether the fixed directory exists (os.chdir raises if
not, aborting the process), and, for each subprocess.run call, whether the
call raises a runtime exception (Except.error, e.g. the git executable is
missing) or completes and returns an exit code (Except.ok code).  The
script never inspects the returned CompletedProcess, so a returned exit
code, zero or not, never influences control flow; an uncaught exception
aborts the straight-line program at that statement.
-/

/-- The fixed working-directory path passed to os.chdir on line 5. -/
def repoPath : String := "/Users/usuario/Documents/projetos/resea-backend"

/-- The argument vector of the staging call on line 8. -/
def stageArgs : List String :=
  ["git", "add", "src/routes/search.ts", "src/server.ts", "PHASE1_COMPLETE.md"]

/-- The argument vector of the commit call on line 11. -/
def commitArgs : List String :=
  ["git", "commit", "-m", "feat: Complete Phase 1 automation"]

/-- The argument vector of the push call on line 14. -/
def pushArgs : List String :=
  ["git", "push", "origin", "main"]

/-- The fixed message printed on line 16. -/
def successMsg : String := "✅ Commit e push concluídos!"

/-- Observable events of a run of the script. -/
inductive Event where
  | chdir (path : String)
  | run (args : List String)
  | print (s : String)
deriving DecidableEq, Repr

/-- Whether the run of the process reached the end of the module body
(completed) or was aborted by an uncaught runtime error (raised). -/
inductive Outcome where
  | completed
  | raised
deriving DecidableEq, Repr

/-- The environment of one run: does the fixed directory exist, and what
does each of the three subprocess.run calls do — raise a runtime exception
(error) or complete with some exit code (ok code). -/
structure Env where
  dirExists : Bool
  stage : Except Unit Int
  commit : Except Unit Int
  push : Except Unit Int

/-- A subprocess.run call completed and returned an exit code (as opposed
to raising a runtime exception such as FileNotFoundError). -/
def returnsExit : Except Unit Int → Bool
  | Except.ok _ => true
  | Except.error _ => false

/-- One subprocess.run statement: the invocation is attempted; if it raises,
the straight-line program aborts there, otherwise the returned exit code is
discarded (the source never binds or inspects the result) and execution
continues with the rest of the module body. -/
def runCmd (args : List String) (result : Except Unit Int)
    (rest : List Event × Outcome) : List Event × Outcome :=
  match result with
  | Except.error _ => ([Event.run args], Outcome.raised)
  | Except.ok _ => (Event.run args :: rest.1, rest.2)

/-- The module body of src/git_push.py, line by line: os.chdir (aborting the
process before anything else if the path does not exist), then the three
subprocess.run statements, then the print. -/
def gitPushRun (e : Env) : List Event × Outcome :=
  if e.dirExists then
    let rest :=
      runCmd stageArgs e.stage
        (runCmd commitArgs e.commit
          (runCmd pushArgs e.push
            ([Event.print successMsg], Outcome.completed)))
    (Event.chdir repoPath :: rest.1, rest.2)
  else
    ([], Outcome.raised)

/-- The event trace of a run. -/
def gitPush (e : Env) : List Event := (gitPushRun e).1

/-- The outcome of a run. -/
def outcomeOf (e : Env) : Outcome := (gitPushRun e).2

/-- Invoking the script from a command line: the source imports only
subprocess and os and never reads sys.argv or any configuration, so the
argument vector is ignored. -/
def scriptMain (_argv : List String) (e : Env) : List Event × Outcome :=
  gitPushRun e

/-- The trace of the run in which every statement completes. -/
def fullTrace : List Event :=
  [Event.chdir repoPath, Event.run stageArgs, Event.run commitArgs,
   Event.run pushArgs, Event.print successMsg]

/-- Recogniser for chdir events. -/
def Event.isChdir : Event → Bool
  | Event.chdir _ => true
  | _ => false

/-- Recogniser for subprocess invocations. -/
def Event.isRun : Event → Bool
  | Event.run _ => true
  | _ => false

/-- Recogniser for print events. -/
def Event.isPrint : Event → Bool
  | Event.print _ => true
  | _ => false

/-- Recogniser for staging invocations (git add ...). -/
def Event.isStage : Event → Bool
  | Event.run args => args.take 2 == ["git", "add"]
  | _ => false

/-- Recogniser for commit invocations (git commit ...). -/
def Event.isCommit : Event → Bool
  | Event.run args => args.take 2 == ["git", "commit"]
  | _ => false

/-- Recogniser for push invocations (git push ...). -/
def Event.isPush : Event → Bool
  | Event.run args => args.take 2 == ["git", "push"]
  | _ => false

/-! Shape lemmas: the trace and outcome of each of the five possible run
shapes. The exit codes and exception payloads never occur in the result,
which is what lets the claims below be settled by evaluation. -/

theorem gitPushRun_of_noDir (e : Env) (hd : e.dirExists = false) :
    gitPushRun e = ([], Outcome.raised) := by
  obtain ⟨d, s, c, p⟩ := e
  cases d
  · rfl
  · exact Bool.noConfusion hd

theorem gitPushRun_of_stageRaise (e : Env) (hd : e.dirExists = true)
    (hs : returnsExit e.stage = false) :
    gitPushRun e =
      ([Event.chdir repoPath, Event.run stageArgs], Outcome.raised) := by
  obtain ⟨d, s, c, p⟩ := e
  cases d
  · exact Bool.noConfusion hd
  · cases s
    · rfl
    · exact Bool.noConfusion hs

theorem gitPushRun_of_commitRaise (e : Env) (hd : e.dirExists = true)
    (hs : returnsExit e.stage = true) (hc : returnsExit e.commit = false) :
    gitPushRun e =
      ([Event.chdir repoPath, Event.run stageArgs, Event.run commitArgs],
       Outcome.raised) := by
  obtain ⟨d, s, c, p⟩ := e
  cases d
  · exact Bool.noConfusion hd
  · cases s
    · exact Bool.noConfusion hs
    · cases c
      · rfl
      · exact Bool.noConfusion hc

theorem gitPushRun_of_pushRaise (e : Env) (hd : e.dirExists = true)
    (hs : returnsExit e.stage = true) (hc : returnsExit e.commit = true)
    (hp : returnsExit e.push = false) :
    gitPushRun e =
      ([Event.chdir repoPath, Event.run stageArgs, Event.run commitArgs,
        Event.run pushArgs], Outcome.raised) := by
  obtain ⟨d, s, c, p⟩ := e
  cases d
  · exact Bool.noConfusion hd
  · cases s
    · exact Bool.noConfusion hs
    · cases c
      · exact Bool.noConfusion hc
      · cases p
        · rfl
        · exact Bool.noConfusion hp

theorem gitPushRun_of_allReturn (e : Env) (hd : e.dirExists = true)
    (hs : returnsExit e.stage = true) (hc : returnsExit e.commit = true)
    (hp : returnsExit e.push = true) :
    gitPushRun e = (fullTrace, Outcome.completed) := by
  obtain ⟨d, s, c, p⟩ := e
  cases d
  · exact Bool.noConfusion hd
  · cases s
    · exact Bool.noConfusion hs
    · cases c
      · exact Bool.noConfusion hc
      · cases p
        · exact Bool.noConfusion hp
        · rfl

/-- Every run has one of the five shapes: aborted at chdir, aborted at one
of the three invocations, or completed. -/
theorem gitPushRun_shapes (e : Env) :
    gitPushRun e = ([], Outcome.raised) ∨
    gitPushRun e =
      ([Event.chdir repoPath, Event.run stageArgs], Outcome.raised) ∨
    gitPushRun e =
      ([Event.chdir repoPath, Event.run stageArgs, Event.run commitArgs],
       Outcome.raised) ∨
    gitPushRun e =
      ([Event.chdir repoPath, Event.run stageArgs, Event.run commitArgs,
        Event.run pushArgs], Outcome.raised) ∨
    gitPushRun e = (fullTrace, Outcome.completed) := by
  cases hd : e.dirExists with
  | false => exact Or.inl (gitPushRun_of_noDir e hd)
  | true =>
    cases hs : returnsExit e.stage with
    | false => exact Or.inr (Or.inl (gitPushRun_of_stageRaise e hd hs))
    | true =>
      cases hc : returnsExit e.commit with
      | false =>
        exact Or.inr (Or.inr (Or.inl (gitPushRun_of_commitRaise e hd hs hc)))
      | true =>
        cases hp : returnsExit e.push with
        | false =>
          exact Or.inr (Or.inr (Or.inr (Or.inl
            (gitPushRun_of_pushRaise e hd hs hc hp))))
        | true =>
          exact Or.inr (Or.inr (Or.inr (Or.inr
            (gitPushRun_of_allReturn e hd hs hc hp))))

theorem scriptMain_fst (argv : List String) (e : Env) :
    (scriptMain argv e).1 = gitPush e := rfl

/-- A run in which the directory exists and every subprocess call returns
an exit code (the values of the codes are irrelevant). -/
def envOk : Env := ⟨true, Except.ok 0, Except.ok 0, Except.ok 0⟩

/-- A run in which the fixed directory does not exist. -/
def envNoDir : Env := ⟨false, Except.ok 0, Except.ok 0, Except.ok 0⟩

/-- A run in which the staging call raises a runtime exception. -/
def envStageRaises : Env := ⟨true, Except.error (), Except.ok 0, Except.ok 0⟩

/-- C1: in every run in which the push invocation is reached and the three
invocations return exit codes, the success message is printed exactly once,
after the push invocation, and the trace does not depend on which exit
codes were returned: any two such runs print the same single success line. -/
theorem c1_success_printed_once_after_push (e e' : Env)
    (h : e.dirExists = true ∧ returnsExit e.stage = true ∧
         returnsExit e.commit = true ∧ returnsExit e.push = true)
    (h' : e'.dirExists = true ∧ returnsExit e'.stage = true ∧
          returnsExit e'.commit = true ∧ returnsExit e'.push = true) :
    (gitPush e).countP Event.isPrint = 1 ∧
    (gitPush e).count (Event.print successMsg) = 1 ∧
    [Event.run pushArgs, Event.print successMsg].Sublist (gitPush e) ∧
    gitPush e = gitPush e' := by
  obtain ⟨hd, hs, hc, hp⟩ := h
  obtain ⟨hd', hs', hc', hp'⟩ := h'
  simp only [gitPush]
  rw [gitPushRun_of_allReturn e hd hs hc hp,
    gitPushRun_of_allReturn e' hd' hs' hc' hp']
  decide

/-- Witness for C1: two runs whose exit codes differ print the same single
success line after the push invocation. -/
theorem c1_witness :
    (gitPush envOk).countP Event.isPrint = 1 ∧
    (gitPush envOk).count (Event.print successMsg) = 1 ∧
    [Event.run pushArgs, Event.print successMsg].Sublist (gitPush envOk) ∧
    gitPush envOk = gitPush ⟨true, Except.ok 1, Except.ok 1, Except.ok (-1)⟩ :=
  c1_success_printed_once_after_push envOk
    ⟨true, Except.ok 1, Except.ok 1, Except.ok (-1)⟩
    ⟨rfl, rfl, rfl, rfl⟩ ⟨rfl, rfl, rfl, rfl⟩

/-- C2: in every run that gets past the working-directory change, the
staging command is invoked exactly once, with exactly the three literal
file paths, and before the commit command whenever the latter is invoked. -/
theorem c2_stage_once_before_commit (e : Env) (h : e.dirExists = true) :
    (gitPush e).filter Event.isStage =
      [Event.run ["git", "add", "src/routes/search.ts", "src/server.ts",
        "PHASE1_COMPLETE.md"]] ∧
    (Event.run commitArgs ∈ gitPush e →
      [Event.run stageArgs, Event.run commitArgs].Sublist (gitPush e)) := by
  simp only [gitPush]
  cases hs : returnsExit e.stage with
  | false => rw [gitPushRun_of_stageRaise e h hs]; decide
  | true =>
    cases hc : returnsExit e.commit with
    | false => rw [gitPushRun_of_commitRaise e h hs hc]; decide
    | true =>
      cases hp : returnsExit e.push with
      | false => rw [gitPushRun_of_pushRaise e h hs hc hp]; decide
      | true => rw [gitPushRun_of_allReturn e h hs hc hp]; decide

/-- Witness for C2 on a run in which every call returns. -/
theorem c2_witness :
    (gitPush envOk).filter Event.isStage =
      [Event.run ["git", "add", "src/routes/search.ts", "src/server.ts",
        "PHASE1_COMPLETE.md"]] ∧
    [Event.run stageArgs, Event.run commitArgs].Sublist (gitPush envOk) :=
  ⟨(c2_stage_once_before_commit envOk rfl).1,
   (c2_stage_once_before_commit envOk rfl).2 (by decide)⟩

/-- C3: in every run in which the staging call completes, the commit
command is invoked exactly once, with the literal message, and before the
push command whenever the latter is invoked. -/
theorem c3_commit_once_before_push (e : Env)
    (h : e.dirExists = true ∧ returnsExit e.stage = true) :
    (gitPush e).filter Event.isCommit =
      [Event.run ["git", "commit", "-m", "feat: Complete Phase 1 automation"]] ∧
    (Event.run pushArgs ∈ gitPush e →
      [Event.run commitArgs, Event.run pushArgs].Sublist (gitPush e)) := by
  obtain ⟨hd, hs⟩ := h
  simp only [gitPush]
  cases hc : returnsExit e.commit with
  | false => rw [gitPushRun_of_commitRaise e hd hs hc]; decide
  | true =>
    cases hp : returnsExit e.push with
    | false => rw [gitPushRun_of_pushRaise e hd hs hc hp]; decide
    | true => rw [gitPushRun_of_allReturn e hd hs hc hp]; decide

/-- Witness for C3 on a run in which every call returns. -/
theorem c3_witness :
    (gitPush envOk).filter Event.isCommit =
      [Event.run ["git", "commit", "-m", "feat: Complete Phase 1 automation"]] ∧
    [Event.run commitArgs, Event.run pushArgs].Sublist (gitPush envOk) :=
  ⟨(c3_commit_once_before_push envOk ⟨rfl, rfl⟩).1,
   (c3_commit_once_before_push envOk ⟨rfl, rfl⟩).2 (by decide)⟩

/-- C4: in every run in which the staging and commit calls complete, the
push command is invoked exactly once, with arguments origin and main. -/
theorem c4_push_once (e : Env)
    (h : e.dirExists = true ∧ returnsExit e.stage = true ∧
         returnsExit e.commit = true) :
    (gitPush e).filter Event.isPush =
      [Event.run ["git", "push", "origin", "main"]] := by
  obtain ⟨hd, hs, hc⟩ := h
  simp only [gitPush]
  cases hp : returnsExit e.push with
  | false => rw [gitPushRun_of_pushRaise e hd hs hc hp]; decide
  | true => rw [gitPushRun_of_allReturn e hd hs hc hp]; decide

/-- Witness for C4 on a run in which every call returns. -/
theorem c4_witness :
    (gitPush envOk).filter Event.isPush =
      [Event.run ["git", "push", "origin", "main"]] :=
  c4_push_once envOk ⟨rfl, rfl, rfl⟩

/-- C5: every run is an initial segment of the fixed linear sequence
chdir, stage, commit, push, print: no step is reordered, repeated or
retried, and a run that completes performs exactly that sequence. -/
theorem c5_linear_sequence (e : Env) :
    (gitPush e).isPrefixOf fullTrace = true ∧
    (gitPush e).Nodup ∧
    (outcomeOf e = Outcome.completed → gitPush e = fullTrace) := by
  simp only [gitPush, outcomeOf]
  rcases gitPushRun_shapes e with he | he | he | he | he <;> rw [he] <;> decide

/-- Witness for C5: the completing run performs exactly the full sequence. -/
theorem c5_witness :
    (gitPush envOk).isPrefixOf fullTrace = true ∧
    (gitPush envOk).Nodup ∧
    gitPush envOk = fullTrace :=
  ⟨(c5_linear_sequence envOk).1, (c5_linear_sequence envOk).2.1,
   (c5_linear_sequence envOk).2.2 rfl⟩

/-- C6: if the working-directory change fails because the fixed path does
not exist, the process aborts before any of the three external commands is
invoked and before the success message is printed. -/
theorem c6_chdir_failure_aborts (e : Env) (h : e.dirExists = false) :
    (gitPush e).countP Event.isRun = 0 ∧
    (gitPush e).countP Event.isPrint = 0 ∧
    gitPush e = [] ∧
    outcomeOf e = Outcome.raised := by
  simp only [gitPush, outcomeOf]
  rw [gitPushRun_of_noDir e h]
  decide

/-- Witness for C6 on a run in which the directory does not exist. -/
theorem c6_witness :
    (gitPush envNoDir).countP Event.isRun = 0 ∧
    (gitPush envNoDir).countP Event.isPrint = 0 ∧
    gitPush envNoDir = [] ∧
    outcomeOf envNoDir = Outcome.raised :=
  c6_chdir_failure_aborts envNoDir rfl

/-- C7: the working directory is the only process state the script
mutates: it is set at most once, only as the very first step, always to
the fixed literal path, and never changed again later in the trace; a run
that gets past the change (nonempty trace) sets it exactly once. -/
theorem c7_workdir_set_once (e : Env) :
    (gitPush e ≠ [] → (gitPush e).countP Event.isChdir = 1 ∧
      (gitPush e).head? = some (Event.chdir repoPath)) ∧
    (∀ ev ∈ gitPush e, Event.isChdir ev = true → ev = Event.chdir repoPath) ∧
    (∀ ev ∈ (gitPush e).drop 1, Event.isChdir ev = false) ∧
    repoPath = "/Users/usuario/Documents/projetos/resea-backend" := by
  simp only [gitPush]
  rcases gitPushRun_shapes e with he | he | he | he | he <;> rw [he] <;> decide

/-- Witness for C7: the completing run changes directory exactly once, as
its first step, to the fixed path. -/
theorem c7_witness :
    (gitPush envOk).countP Event.isChdir = 1 ∧
    (gitPush envOk).head? = some (Event.chdir repoPath) ∧
    repoPath = "/Users/usuario/Documents/projetos/resea-backend" :=
  ⟨((c7_workdir_set_once envOk).1 (by decide)).1,
   ((c7_workdir_set_once envOk).1 (by decide)).2,
   (c7_workdir_set_once envOk).2.2.2⟩

/-- C8: the script reads no command-line arguments and no configuration:
its whole behaviour is independent of the argument vector, every command
it invokes is one of the three fixed argument vectors, and the directory
it changes to is the fixed path. -/
theorem c8_no_inputs_deterministic (argv₁ argv₂ : List String) (e : Env) :
    scriptMain argv₁ e = scriptMain argv₂ e ∧
    (∀ ev ∈ (scriptMain argv₁ e).1, Event.isRun ev = true →
      ev = Event.run stageArgs ∨ ev = Event.run commitArgs ∨
      ev = Event.run pushArgs) ∧
    (∀ ev ∈ (scriptMain argv₁ e).1, Event.isChdir ev = true →
      ev = Event.chdir repoPath) := by
  refine ⟨rfl, ?_, ?_⟩ <;>
    (simp only [scriptMain_fst, gitPush]
     rcases gitPushRun_shapes e with he | he | he | he | he <;>
       rw [he] <;> decide)

/-- Witness for C8: a run given a command-line flag behaves exactly like a
run given no arguments. -/
theorem c8_witness :
    scriptMain ["--force"] envOk = scriptMain [] envOk :=
  (c8_no_inputs_deterministic ["--force"] [] envOk).1

/-- C9: a runtime exception from one of the three invocations aborts the
run at that point: no later external command is invoked and the success
message is not printed; whereas returned exit statuses, zero or not, are
silently absorbed and the run completes with the single success line. -/
theorem c9_exception_aborts (e : Env) (h : e.dirExists = true) :
    (returnsExit e.stage = false →
      (gitPush e).countP Event.isCommit = 0 ∧
      (gitPush e).countP Event.isPush = 0 ∧
      (gitPush e).countP Event.isPrint = 0 ∧
      outcomeOf e = Outcome.raised) ∧
    (returnsExit e.stage = true → returnsExit e.commit = false →
      (gitPush e).countP Event.isPush = 0 ∧
      (gitPush e).countP Event.isPrint = 0 ∧
      outcomeOf e = Outcome.raised) ∧
    (returnsExit e.stage = true → returnsExit e.commit = true →
        returnsExit e.push = false →
      (gitPush e).countP Event.isPrint = 0 ∧
      outcomeOf e = Outcome.raised) ∧
    (returnsExit e.stage = true → returnsExit e.commit = true →
        returnsExit e.push = true →
      outcomeOf e = Outcome.completed ∧
      (gitPush e).countP Event.isPrint = 1) := by
  simp only [gitPush, outcomeOf]
  cases hs : returnsExit e.stage with
  | false =>
    cases hc : returnsExit e.commit with
    | false =>
      cases hp : returnsExit e.push with
      | false => rw [gitPushRun_of_stageRaise e h hs]; decide
      | true => rw [gitPushRun_of_stageRaise e h hs]; decide
    | true =>
      cases hp : returnsExit e.push with
      | false => rw [gitPushRun_of_stageRaise e h hs]; decide
      | true => rw [gitPushRun_of_stageRaise e h hs]; decide
  | true =>
    cases hc : returnsExit e.commit with
    | false =>
      cases hp : returnsExit e.push with
      | false => rw [gitPushRun_of_commitRaise e h hs hc]; decide
      | true => rw [gitPushRun_of_commitRaise e h hs hc]; decide
    | true =>
      cases hp : returnsExit e.push with
      | false => rw [gitPushRun_of_pushRaise e h hs hc hp]; decide
      | true => rw [gitPushRun_of_allReturn e h hs hc hp]; decide

/-- Witness for C9: a run whose staging call raises invokes neither commit
nor push, prints nothing, and aborts. -/
theorem c9_witness :
    (gitPush envStageRaises).countP Event.isCommit = 0 ∧
    (gitPush envStageRaises).countP Event.isPush = 0 ∧
    (gitPush envStageRaises).countP Event.isPrint = 0 ∧
    outcomeOf envStageRaises = Outcome.raised :=
  (c9_exception_aborts envStageRaises rfl).1 rfl

/-- C10: the script itself writes at most one line to standard output,
every line it writes is exactly the fixed success string, and a completing
run writes exactly one such line. -/
theorem c10_single_output_line (e : Env) :
    (gitPush e).countP Event.isPrint ≤ 1 ∧
    (∀ ev ∈ gitPush e, Event.isPrint ev = true →
      ev = Event.print "✅ Commit e push concluídos!") ∧
    (outcomeOf e = Outcome.completed → (gitPush e).countP Event.isPrint = 1) := by
  simp only [gitPush, outcomeOf]
  rcases gitPushRun_shapes e with he | he | he | he | he <;> rw [he] <;> decide

/-- Witness for C10: the completing run prints exactly one line, the fixed
success string. -/
theorem c10_witness :
    (gitPush envOk).countP Event.isPrint ≤ 1 ∧
    Event.print successMsg = Event.print "✅ Commit e push concluídos!" ∧
    (gitPush envOk).countP Event.isPrint = 1 :=
  ⟨(c10_single_output_line envOk).1,
   (c10_single_output_line envOk).2.1 (Event.print successMsg) (by decide) rfl,
   (c10_single_output_line envOk).2.2 rfl⟩
